import Mathlib

/-!
Verification of the HTTP provider request/response pipeline.

Shallow embedding of the `http` data source and `http` resource of the
terraform-provider-http repository.  The authoritative source for the data
source is the current `httpDataSource.Read` / `httpDataSource.Schema` pair
built on the go-retryablehttp client, and for the stateful resource the
`httpResource` Create/Read/Update/Delete operations with the `when`
attribute.

Conventions of the embedding:
* Terraform framework nullable values (`types.String`, `types.Int64`,
  `types.Bool`) are `Option String` / `Option Int` / `Option Bool`; the Go
  zero-on-null accessors `ValueString` / `ValueInt64` / `ValueBool` are the
  `value*` helpers below.
* Go byte slices (response bodies) are `List Nat` with every entry `< 256`.
  A Go `string` built by `string(bytes)` is the identity on bytes, so the
  `response_body` field is kept as the raw byte list.
* The network is an oracle `server : Nat -> Attempt` giving, for each attempt
  index, the duration (ms) the exchange would take and the outcome the server
  produces.  Real time enters only through these durations and through the
  backoff delays of the retry client.
-/

namespace HttpSpec

/-- Go `types.String.ValueString()`: empty string when null. -/
def valueString (o : Option String) : String := o.getD ""

/-- Go `types.Int64.ValueInt64()`: zero when null. -/
def valueInt64 (o : Option Int) : Int := o.getD 0

/-- Go `types.Bool.ValueBool()`: false when null. -/
def valueBool (o : Option Bool) : Bool := o.getD false

/-- The nested `retry` block (`retryModel` in the source): `attempts`,
`min_delay_ms`, `max_delay_ms`, each a nullable Int64. -/
structure retryModel where
  attempts : Option Int
  minDelay : Option Int
  maxDelay : Option Int
deriving Repr, DecidableEq

/-- The data source configuration model (`modelV0` in the source), restricted
to the fields the request pipeline reads.  `requestHeaders` keeps the map as
an association list (Terraform map keys are unique). -/
structure modelV0 where
  url : String
  method : Option String
  requestHeaders : List (String × String)
  requestBody : Option String
  requestTimeout : Option Int
  retry : Option retryModel
  caCertificate : Option String
  insecure : Option Bool
deriving Repr, DecidableEq

/-- A model with every optional field null, for building concrete inputs. -/
def emptyModel (u : String) : modelV0 :=
  { url := u, method := none, requestHeaders := [], requestBody := none,
    requestTimeout := none, retry := none, caCertificate := none,
    insecure := none }

/-! ## Outgoing request construction

Mirrors `retryablehttp.NewRequestWithContext(ctx, method, requestURL, nil)`
followed by the conditional `request.SetBody` and the header loop of `Read`
(the loop calls `request.Header.Set(name, header)` and, when the lowercased
name is "host", assigns `request.Host = header`). -/

/-- Whether a byte may appear in a canonical MIME header key
(Go `net/textproto` token bytes: letters, digits, and the punctuation below). -/
def isHeaderTokenChar (c : Char) : Bool :=
  (c ≥ 'a' && c ≤ 'z') || (c ≥ 'A' && c ≤ 'Z') || (c ≥ '0' && c ≤ '9') ||
    c = '!' || c = '#' || c = '$' || c = '%' || c = '&' || c = '*' ||
    c = '+' || c = '-' || c = '.' || c = '^' || c = '_' ||
    c = '|' || c = '~' || c = '\x27' || c = '\x60'

/-- One step of Go `textproto.CanonicalMIMEHeaderKey`: uppercase after a
hyphen or at the start, lowercase elsewhere.  `upper` is whether the next
letter starts a word. -/
def canonicalChars : Bool → List Char → List Char
  | _, [] => []
  | upper, c :: cs =>
      let c' := if upper then c.toUpper else c.toLower
      c' :: canonicalChars (c = '-') cs

/-- Go `textproto.CanonicalMIMEHeaderKey`: canonicalize when every byte is a
valid token byte, otherwise return the key unchanged. -/
def canonicalHeaderKey (s : String) : String :=
  if s.data.all isHeaderTokenChar then String.mk (canonicalChars true s.data)
  else s

/-- Go `http.Header.Set`: replace any entry under the canonical key,
otherwise add one. -/
def headerSet (hs : List (String × String)) (k v : String) :
    List (String × String) :=
  let ck := canonicalHeaderKey k
  if hs.any (fun p => p.1 = ck) then
    hs.map (fun p => if p.1 = ck then (ck, v) else p)
  else hs ++ [(ck, v)]

/-- The outgoing request assembled by `Read` before `retryClient.Do`.
`host` models `http.Request.Host` (connection-level Host header override);
`url` is the untouched request URL used for routing; `body = none` means no
body object was attached to the request. -/
structure OutgoingRequest where
  method : String
  url : String
  headers : List (String × String)
  host : Option String
  body : Option String
deriving Repr, DecidableEq

/-- Go `strings.ToLower`, as a per-character map. -/
def toLowerStr (s : String) : String := String.mk (s.data.map Char.toLower)

/-- The header loop of `Read`: `request.Header.Set(name, header)` and the
Host override `if strings.ToLower(name) == "host" { request.Host = header }`. -/
def applyHeaders (r : OutgoingRequest) (hs : List (String × String)) :
    OutgoingRequest :=
  hs.foldl
    (fun r nv =>
      let r' := { r with headers := headerSet r.headers nv.1 nv.2 }
      if toLowerStr nv.1 = "host" then { r' with host := some nv.2 } else r')
    r

/-- The effective method: `if method == "" { method = "GET" }`. -/
def effectiveMethod (m : modelV0) : String :=
  if valueString m.method = "" then "GET" else valueString m.method

/-- Request construction in `Read`: a request with nil body is created, the
body is attached verbatim only when `request_body` is non-null
(`if !model.RequestBody.IsNull() { request.SetBody(...) }`), then the
header loop runs. -/
def buildRequest (m : modelV0) : OutgoingRequest :=
  let base : OutgoingRequest :=
    { method := effectiveMethod m, url := m.url, headers := [], host := none,
      body := none }
  let withBody :=
    match m.requestBody with
    | none => base
    | some b => { base with body := some b }
  applyHeaders withBody m.requestHeaders

/-! ## Standard base64 (RFC 4648), as `encoding/base64` StdEncoding

`Read` computes `base64.StdEncoding.EncodeToString(bytes)` unconditionally on
the raw response bytes. -/

/-- The standard base64 alphabet. -/
def base64Chars : List Char :=
  "ABCDEFGHIJKLMNOPQRSTUVWXYZabcdefghijklmnopqrstuvwxyz0123456789+/".data

/-- The alphabet character for a 6-bit value. -/
def b64c (n : Nat) : Char := base64Chars.getD n 'A'

/-- The 6-bit value of an alphabet character, if any. -/
def b64v (c : Char) : Option Nat :=
  let i := base64Chars.indexOf c
  if i < 64 then some i else none

/-- Standard base64 encoding of a byte list, three bytes at a time, with
padding on the final one- or two-byte group. -/
def base64EncodeChars : List Nat → List Char
  | b0 :: b1 :: b2 :: rest =>
      let n := b0 * 65536 + b1 * 256 + b2
      b64c (n / 262144) :: b64c (n / 4096 % 64) :: b64c (n / 64 % 64) ::
        b64c (n % 64) :: base64EncodeChars rest
  | [b0, b1] =>
      [b64c (b0 / 4), b64c (b0 % 4 * 16 + b1 / 16), b64c (b1 % 16 * 4), '=']
  | [b0] =>
      [b64c (b0 / 4), b64c (b0 % 4 * 16), '=', '=']
  | [] => []

/-- Go `base64.StdEncoding.EncodeToString`. -/
def base64Encode (bs : List Nat) : String := String.mk (base64EncodeChars bs)

/-- Standard base64 decoding, four characters at a time; padding is accepted
only in the final group. -/
def base64DecodeChars : List Char → Option (List Nat)
  | [] => some []
  | c0 :: c1 :: c2 :: c3 :: rest =>
      match b64v c0, b64v c1 with
      | some v0, some v1 =>
          if c2 = '=' then
            if c3 = '=' && rest.isEmpty then some [v0 * 4 + v1 / 16] else none
          else
            match b64v c2 with
            | some v2 =>
                if c3 = '=' then
                  if rest.isEmpty then
                    some [v0 * 4 + v1 / 16, v1 % 16 * 16 + v2 / 4]
                  else none
                else
                  match b64v c3, base64DecodeChars rest with
                  | some v3, some ds =>
                      some ((v0 * 4 + v1 / 16) :: (v1 % 16 * 16 + v2 / 4) ::
                        (v2 % 4 * 64 + v3) :: ds)
                  | _, _ => none
            | none => none
      | _, _ => none
  | _ => none

/-- Standard base64 decoding of a string. -/
def base64Decode (s : String) : Option (List Nat) := base64DecodeChars s.data

/-! ## UTF-8 validity, as Go `unicode/utf8.Valid`

Shortest-form UTF-8 with surrogates excluded and code points capped at
U+10FFFF, expressed through the first-byte classes and continuation ranges of
the Go implementation. -/

/-- A continuation byte within a closed range. -/
def inRange (lo hi b : Nat) : Bool := lo ≤ b && b ≤ hi

/-- Go `utf8.Valid` over raw bytes. -/
def utf8Valid : List Nat → Bool
  | [] => true
  | b :: rest =>
      if b < 0x80 then utf8Valid rest
      else if 0xC2 ≤ b && b ≤ 0xDF then
        match rest with
        | b1 :: r => inRange 0x80 0xBF b1 && utf8Valid r
        | [] => false
      else if b = 0xE0 then
        match rest with
        | b1 :: b2 :: r => inRange 0xA0 0xBF b1 && inRange 0x80 0xBF b2 &&
            utf8Valid r
        | _ => false
      else if (0xE1 ≤ b && b ≤ 0xEC) || b = 0xEE || b = 0xEF then
        match rest with
        | b1 :: b2 :: r => inRange 0x80 0xBF b1 && inRange 0x80 0xBF b2 &&
            utf8Valid r
        | _ => false
      else if b = 0xED then
        match rest with
        | b1 :: b2 :: r => inRange 0x80 0x9F b1 && inRange 0x80 0xBF b2 &&
            utf8Valid r
        | _ => false
      else if b = 0xF0 then
        match rest with
        | b1 :: b2 :: b3 :: r => inRange 0x90 0xBF b1 && inRange 0x80 0xBF b2 &&
            inRange 0x80 0xBF b3 && utf8Valid r
        | _ => false
      else if 0xF1 ≤ b && b ≤ 0xF3 then
        match rest with
        | b1 :: b2 :: b3 :: r => inRange 0x80 0xBF b1 && inRange 0x80 0xBF b2 &&
            inRange 0x80 0xBF b3 && utf8Valid r
        | _ => false
      else if b = 0xF4 then
        match rest with
        | b1 :: b2 :: b3 :: r => inRange 0x80 0x8F b1 && inRange 0x80 0xBF b2 &&
            inRange 0x80 0xBF b3 && utf8Valid r
        | _ => false
      else false

/-! ## Go `time.Duration.String`, restricted to millisecond granularity

The pipeline renders the configured timeout as
`time.Duration(ms) * time.Millisecond`, whose `String()` for millisecond
multiples is: "0s" for zero, "Nms" below one second, and otherwise seconds
with a trimmed decimal fraction, prefixed by minutes and hours when the
duration reaches them (e.g. "5ms", "1.5s", "1m30s", "1h0m0s"). -/

/-- Drop trailing zero digits of a fraction written least-significant-last. -/
def trimZeroesRight (cs : List Char) : List Char :=
  (cs.reverse.dropWhile (fun c => c = '0')).reverse

/-- Three-digit zero-padded rendering of a sub-second millisecond remainder. -/
def pad3 (n : Nat) : List Char :=
  (Nat.toDigits 10 n).reverse.takeD 3 '0' |>.reverse

/-- Go `time.Duration.String` for a duration of `ms` milliseconds. -/
def durationString (ms : Nat) : String :=
  if ms = 0 then "0s"
  else if ms < 1000 then toString ms ++ "ms"
  else
    let totalSec := ms / 1000
    let remMs := ms % 1000
    let frac :=
      if remMs = 0 then "" else "." ++ String.mk (trimZeroesRight (pad3 remMs))
    let secPart := toString (totalSec % 60) ++ frac ++ "s"
    if totalSec < 60 then secPart
    else
      let totalMin := totalSec / 60
      let minPart := toString (totalMin % 60) ++ "m" ++ secPart
      if totalMin < 60 then minPart
      else toString (totalMin / 60) ++ "h" ++ minPart

/-! ## Retry client configuration

`Read` builds a `retryablehttp` client: `RetryMax` comes from the retry
block's `attempts` (`ValueInt64`, zero when the block or the field is null);
`RetryWaitMin` / `RetryWaitMax` are overridden only when the corresponding
field is non-null and nonnegative, otherwise the client keeps its defaults of
one second and thirty seconds; `HTTPClient.Timeout` is set only when
`request_timeout_ms` is positive. -/

/-- The retry block decoded by `Read` (zero value when the block is null). -/
def effectiveRetry (m : modelV0) : retryModel :=
  m.retry.getD { attempts := none, minDelay := none, maxDelay := none }

/-- The assignment `retryClient.RetryMax = int(retry.Attempts.ValueInt64())`. -/
def retryMax (m : modelV0) : Int := valueInt64 (effectiveRetry m).attempts

/-- The `RetryWaitMin` value in ms: the configured `min_delay_ms` when non-null and
nonnegative, else the library default of 1000. -/
def retryWaitMin (m : modelV0) : Int :=
  match (effectiveRetry m).minDelay with
  | some v => if v ≥ 0 then v else 1000
  | none => 1000

/-- The `RetryWaitMax` value in ms: the configured `max_delay_ms` when non-null and
nonnegative, else the library default of 30000. -/
def retryWaitMax (m : modelV0) : Int :=
  match (effectiveRetry m).maxDelay with
  | some v => if v ≥ 0 then v else 30000
  | none => 30000

/-- The `timeout` local of `Read`: the configured `request_timeout_ms` when
positive, otherwise zero (meaning no per-attempt client timeout). -/
def timeoutMs (m : modelV0) : Int :=
  if valueInt64 m.requestTimeout > 0 then valueInt64 m.requestTimeout else 0

/-! ## The network oracle and one attempt -/

/-- What the server does on one attempt: either the client errors out
(`msg` is the Go error string, e.g. a `url.Error` rendering;
`isTimeout` is whether `url.Error.Timeout()` holds), or a response arrives
with a status, headers (each name with its list of values in encounter
order) and raw body bytes. -/
inductive AttemptOutcome where
  | failure (isTimeout : Bool) (msg : String)
  | response (status : Int) (headers : List (String × List String))
      (body : List Nat)
deriving Repr, DecidableEq

/-- One attempt as the oracle sees it: how long the exchange would take (ms)
and what the server would produce. -/
structure Attempt where
  duration : Nat
  outcome : AttemptOutcome
deriving Repr, DecidableEq

/-- The Go error string of a client-side timeout
(`net/http` context deadline rendering). -/
def clientTimeoutMsg : String :=
  "context deadline exceeded (Client.Timeout exceeded while awaiting headers)"

/-- The outcome the retry client observes for one attempt: with a positive
per-attempt client timeout `T`, an exchange that would take at least `T` is
cut off as a timeout failure; otherwise the server outcome stands. -/
def effectiveOutcome (T : Int) (a : Attempt) : AttemptOutcome :=
  if T > 0 ∧ (a.duration : Int) ≥ T then .failure true clientTimeoutMsg
  else a.outcome

/-- Wall-clock milliseconds one attempt occupies: capped at the per-attempt
timeout when one is set. -/
def attemptElapsed (T : Int) (a : Attempt) : Int :=
  if T > 0 ∧ (a.duration : Int) ≥ T then T else a.duration

/-- Whether a response status is retryable, per the retry client's default
retry policy: 429 (Too Many Requests) is recoverable, and so is status 0 or
any status of at least 500 other than 501 (Not Implemented). -/
def statusRetryable (s : Int) : Bool :=
  s = 0 || s = 429 || (500 ≤ s && s ≠ 501)

/-- Whether a character is an ASCII digit. -/
def isDigitChar (c : Char) : Bool := '0' ≤ c && c ≤ '9'

/-- Value of a nonempty all-digit character list, most significant first. -/
def digitsToNat (cs : List Char) : Option Nat :=
  if cs.isEmpty then none
  else if cs.all isDigitChar then
    some (cs.foldl (fun acc c => acc * 10 + (c.toNat - 48)) 0)
  else none

/-- Go `strconv.ParseInt` base 10 (an optional sign followed by digits). -/
def parseIntString (s : String) : Option Int :=
  match s.data with
  | '-' :: rest => (digitsToNat rest).map (fun n => -(n : Int))
  | '+' :: rest => (digitsToNat rest).map (fun n => (n : Int))
  | cs => (digitsToNat cs).map (fun n => (n : Int))

/-- Whether the pattern occurs as a contiguous run inside the list
(an unanchored regular-expression match of a literal pattern). -/
def containsChars (pat : List Char) : List Char → Bool
  | [] => pat.isEmpty
  | c :: cs => pat.isPrefixOf (c :: cs) || containsChars pat cs

/-- Whether the pattern string occurs inside the subject string. -/
def containsSub (s pat : String) : Bool := containsChars pat.data s.data

/-- Whether the message ends with "stopped after <digits> redirects": the
end-anchored redirect-loop pattern of the default retry policy. -/
def matchStoppedRedirects (s : String) : Bool :=
  let r := s.data.reverse
  if (" redirects".data.reverse).isPrefixOf r then
    let rest := r.drop 10
    let ds := rest.takeWhile isDigitChar
    decide (1 ≤ ds.length) &&
      ("stopped after ".data.reverse).isPrefixOf (rest.drop ds.length)
  else false

/-- The client errors the default retry policy refuses to retry, matched on
the rendered `url.Error` string exactly as the policy's patterns do:
too many redirects, an unsupported protocol scheme, an invalid header, and
the two certificate-verification shapes (the "certificate is not trusted"
pattern and the `x509.UnknownAuthorityError` rendering). -/
def errorPermanent (msg : String) : Bool :=
  matchStoppedRedirects msg ||
    containsSub msg "unsupported protocol scheme" ||
    containsSub msg "invalid header" ||
    containsSub msg "certificate is not trusted" ||
    containsSub msg "x509: certificate signed by unknown authority"

/-- The retry decision for one attempt outcome: client errors are retried
unless they fall in one of the permanent classes; responses are retried
exactly when the status is retryable. -/
def shouldRetry : AttemptOutcome → Bool
  | .failure _ msg => !errorPermanent msg
  | .response s _ _ => statusRetryable s

/-- Go `parseRetryAfterHeader`, integer-seconds branch, result in ms: the
first value of the header, parsed as a nonnegative decimal number of
seconds.  (The HTTP-date branch compares against the wall clock and is
outside this embedding.) -/
def parseRetryAfterMs (vs : List String) : Option Int :=
  match vs with
  | [] => none
  | v :: _ =>
      if v = "" then none
      else
        match parseIntString v with
        | some n => if 0 ≤ n then some (n * 1000) else none
        | none => none

/-- The Retry-After override of the default backoff: a 429 or 503 response
carrying a parseable Retry-After header dictates the delay itself. -/
def retryAfterOverride : AttemptOutcome → Option Int
  | .response s hs _ =>
      if s = 429 || s = 503 then
        match hs.lookup "Retry-After" with
        | some vs => parseRetryAfterMs vs
        | none => none
      else none
  | .failure _ _ => none

/-- The retry client's default backoff in ms, given the outcome of the
attempt just made: the server-specified Retry-After delay for 429/503 when
parseable (even outside the configured window), otherwise
`min * 2^attemptNumber` capped at `max`. -/
def backoffDelay (minW maxW : Int) (i : Nat) (o : AttemptOutcome) : Int :=
  match retryAfterOverride o with
  | some d => d
  | none => if minW * 2 ^ i > maxW then maxW else minW * 2 ^ i

/-- The retry loop of the retry client's `Do`: attempt at index `i`; stop on
a non-retryable outcome, or when the remaining retry budget (`fuel`,
initially `RetryMax`) is exhausted.  Returns the final observed outcome and
the number of attempts performed. -/
def runAttempts (T : Int) (server : Nat → Attempt) (i : Nat) :
    Nat → AttemptOutcome × Nat
  | 0 => (effectiveOutcome T (server i), i + 1)
  | fuel + 1 =>
      let o := effectiveOutcome T (server i)
      if shouldRetry o then runAttempts T server (i + 1) fuel else (o, i + 1)

/-- Issue the request with retries: the final outcome and the attempt count. -/
def doRequest (m : modelV0) (server : Nat → Attempt) : AttemptOutcome × Nat :=
  runAttempts (timeoutMs m) server 0 (retryMax m).toNat

/-- Total wall-clock ms of the whole `retryClient.Do` call: the time of every
attempt performed plus the backoff sleeps between consecutive attempts (the
backoff after attempt `i` sees the outcome the client observed for it). -/
def totalElapsed (m : modelV0) (server : Nat → Attempt) : Int :=
  let n := (doRequest m server).2
  ((List.range n).map (fun i => attemptElapsed (timeoutMs m) (server i))).sum +
    ((List.range (n - 1)).map
      (fun i => backoffDelay (retryWaitMin m) (retryWaitMax m) i
        (effectiveOutcome (timeoutMs m) (server i)))).sum

/-- What `retryClient.Do` returns to `Read`: a response, or an error string
(`isTimeout` records whether a `url.Error` with `Timeout()` is in the error
chain). -/
inductive RequestResult where
  | ok (status : Int) (headers : List (String × List String)) (body : List Nat)
  | err (isTimeout : Bool) (msg : String)
deriving Repr, DecidableEq

/-- The give-up error prefix of the retry client:
method, URL and the attempt count. -/
def givingUpMsg (m : modelV0) (n : Nat) : String :=
  effectiveMethod m ++ " " ++ m.url ++ " giving up after " ++ toString n ++
    " attempt(s)"

/-- The tail of the retry client's `Do`: a final non-retryable response is
returned as-is; otherwise the call fails with the give-up error, wrapping the
last client error when there was one (a final retryable response produces the
give-up error with no cause). -/
def doResult (m : modelV0) (server : Nat → Attempt) : RequestResult :=
  match doRequest m server with
  | (.response s hs b, n) =>
      if statusRetryable s then .err false (givingUpMsg m n) else .ok s hs b
  | (.failure tmo msg, n) => .err tmo (givingUpMsg m n ++ ": " ++ msg)

/-! ## The response mapper and `Read` outcome -/

/-- The computed state written by `Read` on success.  `responseBody` and
`body` hold the raw bytes (a Go string conversion is the identity on bytes);
`responseHeaders` joins each name's values with ", ". -/
structure ResponseResult where
  id : String
  responseHeaders : List (String × String)
  responseBody : List Nat
  body : List Nat
  responseBodyBase64 : String
  statusCode : Int
deriving Repr, DecidableEq

/-- The warning attached when the body bytes are not valid UTF-8. -/
def utf8Warning : String × String :=
  ("Response body is not recognized as UTF-8",
   "Terraform may not properly handle the response_body if the contents are binary.")

/-- The outcome of `Read`: a fatal diagnostic, or the computed state together
with the attached warning diagnostics. -/
inductive ReadOutcome where
  | fatal (summary : String) (detail : String)
  | success (state : ResponseResult) (warnings : List (String × String))
deriving Repr, DecidableEq

/-- The response mapper of `Read`: UTF-8 check (warning only), raw body kept
verbatim, unconditional standard base64, duplicate header values joined with
", ", status code copied, id set to the URL. -/
def mapResponse (m : modelV0) (s : Int)
    (hs : List (String × List String)) (b : List Nat) : ReadOutcome :=
  .success
    { id := m.url
      responseHeaders := hs.map (fun kv => (kv.1, String.intercalate ", " kv.2))
      responseBody := b
      body := b
      responseBodyBase64 := base64Encode b
      statusCode := s }
    (if utf8Valid b then [] else [utf8Warning])

/-- The error handling of `Read` after `retryClient.Do`: a timeout in the
error chain produces the timeout detail (naming the configured duration when
one was set), any other error the generic request-error detail; a response
flows into the mapper. -/
def readPipeline (m : modelV0) (server : Nat → Attempt) : ReadOutcome :=
  match doResult m server with
  | .err tmo msg =>
      if tmo then
        let T := timeoutMs m
        let detail :=
          if T > 0 then
            "request exceeded the specified timeout: " ++
              durationString T.toNat ++ ", err: " ++ msg
          else "timeout error: " ++ msg
        .fatal "Error making request" detail
      else .fatal "Error making request" ("Error making request: " ++ msg)
  | .ok s hs b => mapResponse m s hs b

/-- The reported status, when `Read` succeeded. -/
def statusOf : ReadOutcome → Option Int
  | .success st _ => some st.statusCode
  | .fatal _ _ => none

/-- Whether `Read` ended with a fatal diagnostic. -/
def isFatal : ReadOutcome → Bool
  | .fatal _ _ => true
  | .success _ _ => false

/-! ## Schema validation

The declared attribute validators run before `Read` is ever called (the
plugin framework validates the configuration first):
`attempts`, `min_delay_ms`, `max_delay_ms` each carry `AtLeast(0)`;
`max_delay_ms` additionally carries
`AtLeastSumOf(min_delay_ms)` (skipped when `max_delay_ms` itself is null;
a null referenced value contributes nothing to the sum);
`method` carries `OneOf(GET, POST, HEAD)` (skipped when null);
`request_timeout_ms` carries `AtLeast(1)`;
`ca_cert_pem` carries `ConflictsWith(insecure)`. -/

/-- Validator `int64validator.AtLeast(n)` on a nullable Int64 (null passes). -/
def atLeastOk (n : Int) : Option Int → Bool
  | none => true
  | some v => n ≤ v

/-- Validator `int64validator.AtLeastSumOf(min_delay_ms)` on `max_delay_ms`. -/
def maxDelayAtLeastMinDelay (r : retryModel) : Bool :=
  match r.maxDelay with
  | none => true
  | some mx => (match r.minDelay with | none => 0 | some mn => mn) ≤ mx

/-- All declared validators of the `retry` block. -/
def validRetryBlock (r : retryModel) : Bool :=
  atLeastOk 0 r.attempts && atLeastOk 0 r.minDelay && atLeastOk 0 r.maxDelay &&
    maxDelayAtLeastMinDelay r

/-- Validator `stringvalidator.OneOf(GET, POST, HEAD)` on `method` (null passes). -/
def validMethod : Option String → Bool
  | none => true
  | some s => s = "GET" || s = "POST" || s = "HEAD"

/-- All declared attribute validators of the data source schema that concern
the request pipeline. -/
def validConfig (m : modelV0) : Bool :=
  validMethod m.method && atLeastOk 1 m.requestTimeout &&
    (match m.retry with | none => true | some r => validRetryBlock r) &&
    !(m.caCertificate.isSome && m.insecure.isSome)

/-- A full invocation: schema validation first, `Read` only on a valid
configuration. -/
def invoke (m : modelV0) (server : Nat → Attempt) : ReadOutcome :=
  if validConfig m then readPipeline m server
  else .fatal "Invalid Attribute Value" "schema validation failed"

/-- Network requests performed by a full invocation: none when validation
fails, otherwise the attempts of the retry loop. -/
def invokeRequestCount (m : modelV0) (server : Nat → Attempt) : Nat :=
  if validConfig m then (doRequest m server).2 else 0

/-! ## The stateful `http` resource (`httpResource`, `unnamed/part_020`)

The resource shares the request pipeline (`performRequest` mirrors the data
source `Read`) and adds the `when` attribute: `apply` (default) sends the
request on Create and Update, `destroy` sends it only on Delete. -/

/-- The resource configuration model: the data source fields plus client
certificate material and the `when` attribute. -/
structure resourceModel where
  url : String
  method : Option String
  requestHeaders : List (String × String)
  requestBody : Option String
  requestTimeout : Option Int
  retry : Option retryModel
  caCertificate : Option String
  clientCert : Option String
  clientKey : Option String
  insecure : Option Bool
  whenAttr : Option String
deriving Repr, DecidableEq

/-- The request-pipeline view of a resource configuration. -/
def resourceToModel (m : resourceModel) : modelV0 :=
  { url := m.url, method := m.method, requestHeaders := m.requestHeaders,
    requestBody := m.requestBody, requestTimeout := m.requestTimeout,
    retry := m.retry, caCertificate := m.caCertificate,
    insecure := m.insecure }

/-- The `whenValue` local of Create/Update/Delete: "apply" unless the `when`
attribute is set. -/
def whenValue (m : resourceModel) : String := m.whenAttr.getD "apply"

/-- The placeholder state Create writes when no request is performed:
id echoes the URL, empty response headers map, empty bodies, empty base64,
status code zero. -/
def placeholderState (u : String) : ResponseResult :=
  { id := u, responseHeaders := [], responseBody := [], body := [],
    responseBodyBase64 := "", statusCode := 0 }

/-- Operation `httpResource.Create`: performs the request only when `when` resolves to
"apply", otherwise writes the placeholder state.  Returns the outcome and the
number of network attempts performed. -/
def createOp (m : resourceModel) (server : Nat → Attempt) :
    ReadOutcome × Nat :=
  if whenValue m = "apply" then
    (readPipeline (resourceToModel m) server,
     (doRequest (resourceToModel m) server).2)
  else (.success (placeholderState m.url) [], 0)

/-- Operation `httpResource.Read`: never performs a request; it only normalizes the
stored state (our state type has no null fields, so it passes through). -/
def readOp (st : ResponseResult) : ReadOutcome × Nat :=
  (.success st [], 0)

/-- Operation `httpResource.Update`: performs the request only when the planned `when`
resolves to "apply"; otherwise it keeps the prior computed state. -/
def updateOp (plan : resourceModel) (prior : ResponseResult)
    (server : Nat → Attempt) : ReadOutcome × Nat :=
  if whenValue plan = "apply" then
    (readPipeline (resourceToModel plan) server,
     (doRequest (resourceToModel plan) server).2)
  else (.success prior [], 0)

/-- Operation `httpResource.Delete`: performs the request only when `when` resolves to
"destroy".  Delete writes no state; only the attempt count is observable. -/
def deleteOp (m : resourceModel) (server : Nat → Attempt) : Nat :=
  if whenValue m = "destroy" then (doRequest (resourceToModel m) server).2
  else 0

/-! ## Helper lemmas -/

theorem applyHeaders_cons (r : OutgoingRequest) (nv : String × String)
    (t : List (String × String)) :
    applyHeaders r (nv :: t) =
      applyHeaders
        (if toLowerStr nv.1 = "host" then
          { r with headers := headerSet r.headers nv.1 nv.2, host := some nv.2 }
         else { r with headers := headerSet r.headers nv.1 nv.2 }) t := by
  simp only [applyHeaders, List.foldl_cons]

theorem applyHeaders_body (hs : List (String × String)) :
    ∀ r : OutgoingRequest, (applyHeaders r hs).body = r.body := by
  induction hs with
  | nil => intro r; rfl
  | cons nv t ih =>
      intro r
      rw [applyHeaders_cons, ih]
      by_cases h : toLowerStr nv.1 = "host" <;> simp [h]

theorem applyHeaders_url (hs : List (String × String)) :
    ∀ r : OutgoingRequest, (applyHeaders r hs).url = r.url := by
  induction hs with
  | nil => intro r; rfl
  | cons nv t ih =>
      intro r
      rw [applyHeaders_cons, ih]
      by_cases h : toLowerStr nv.1 = "host" <;> simp [h]

theorem applyHeaders_host_no_host (hs : List (String × String)) :
    ∀ r : OutgoingRequest, (∀ p ∈ hs, toLowerStr p.1 ≠ "host") →
      (applyHeaders r hs).host = r.host := by
  induction hs with
  | nil => intro r _; rfl
  | cons nv t ih =>
      intro r hall
      rw [applyHeaders_cons]
      have hnv : toLowerStr nv.1 ≠ "host" := hall nv (List.mem_cons_self nv t)
      rw [if_neg hnv]
      exact ih _ (fun p hp => hall p (List.mem_cons_of_mem nv hp))

theorem runAttempts_count_ge (T : Int) (server : Nat → Attempt) :
    ∀ (fuel i : Nat), i + 1 ≤ (runAttempts T server i fuel).2 := by
  intro fuel
  induction fuel with
  | zero => intro i; simp [runAttempts]
  | succ f ih =>
      intro i
      simp only [runAttempts]
      by_cases h : shouldRetry (effectiveOutcome T (server i)) = true
      · rw [if_pos h]
        have := ih (i + 1)
        omega
      · rw [if_neg h]

theorem runAttempts_count_le (T : Int) (server : Nat → Attempt) :
    ∀ (fuel i : Nat), (runAttempts T server i fuel).2 ≤ i + fuel + 1 := by
  intro fuel
  induction fuel with
  | zero => intro i; simp [runAttempts]
  | succ f ih =>
      intro i
      simp only [runAttempts]
      by_cases h : shouldRetry (effectiveOutcome T (server i)) = true
      · rw [if_pos h]
        have := ih (i + 1)
        omega
      · rw [if_neg h]
        omega

theorem runAttempts_no_retry (T : Int) (server : Nat → Attempt)
    (fuel i : Nat) (h : shouldRetry (effectiveOutcome T (server i)) = false) :
    runAttempts T server i fuel = (effectiveOutcome T (server i), i + 1) := by
  cases fuel with
  | zero => rfl
  | succ f => simp only [runAttempts]; rw [if_neg (by simp [h])]

/-! ## Claim theorems -/

/-- C2: when the `request_body` attribute is null, the outgoing request
carries no body object at all; when it is set, the configured string is
attached verbatim as the body.  The body of `buildRequest` is exactly the
configured optional `request_body`. -/
theorem request_body_verbatim_or_absent (m : modelV0) :
    (buildRequest m).body = m.requestBody := by
  unfold buildRequest
  cases h : m.requestBody <;> simp [h, applyHeaders_body]

theorem applyHeaders_host_split (pre post : List (String × String))
    (n v : String) (hn : toLowerStr n = "host")
    (hpost : ∀ p ∈ post, toLowerStr p.1 ≠ "host") :
    ∀ r : OutgoingRequest,
      (applyHeaders r (pre ++ (n, v) :: post)).host = some v := by
  induction pre with
  | nil =>
      intro r
      rw [List.nil_append, applyHeaders_cons]
      simp only [if_pos hn]
      exact applyHeaders_host_no_host post _ hpost
  | cons q t ih =>
      intro r
      rw [List.cons_append, applyHeaders_cons]
      exact ih _

/-- C7: a supplied request header whose name is "Host" up to case sets the
connection-level Host of the outgoing request to that header's value, while
the request URL used for routing is left unchanged. -/
theorem host_header_overrides_connection_host (m : modelV0)
    (pre post : List (String × String)) (n v : String)
    (hsplit : m.requestHeaders = pre ++ (n, v) :: post)
    (hn : toLowerStr n = "host")
    (hpost : ∀ p ∈ post, toLowerStr p.1 ≠ "host") :
    (buildRequest m).host = some v ∧ (buildRequest m).url = m.url := by
  constructor
  · have key := applyHeaders_host_split pre post n v hn hpost
    unfold buildRequest
    rw [hsplit]
    exact key _
  · unfold buildRequest
    cases h : m.requestBody <;> simp [h, applyHeaders_url]

/-- C5: every response header name with its list of values in encounter order
is reported in `response_headers` as the single entry whose value is the
values joined with the separator ", ". -/
theorem response_headers_joined_with_comma_space (m : modelV0)
    (server : Nat → Attempt) (s : Int)
    (hs : List (String × List String)) (b : List Nat)
    (k : String) (vs : List String)
    (hok : doResult m server = .ok s hs b)
    (hmem : (k, vs) ∈ hs) :
    ∃ st ws, readPipeline m server = .success st ws ∧
      (k, String.intercalate ", " vs) ∈ st.responseHeaders := by
  unfold readPipeline
  rw [hok]
  refine ⟨_, _, rfl, ?_⟩
  show (k, String.intercalate ", " vs) ∈
    hs.map (fun kv => (kv.1, String.intercalate ", " kv.2))
  exact List.mem_map_of_mem _ hmem

/-- C6: a response whose body bytes are not valid UTF-8 still succeeds: the
only diagnostic is the UTF-8 warning, and both the raw body and its base64
encoding are still returned. -/
theorem invalid_utf8_warns_but_succeeds (m : modelV0)
    (server : Nat → Attempt) (s : Int)
    (hs : List (String × List String)) (b : List Nat)
    (hok : doResult m server = .ok s hs b)
    (hinv : utf8Valid b = false) :
    ∃ st, readPipeline m server = .success st [utf8Warning] ∧
      st.responseBody = b ∧ st.responseBodyBase64 = base64Encode b ∧
      st.statusCode = s := by
  simp only [readPipeline, hok, mapResponse, hinv, Bool.false_eq_true,
    if_false]
  exact ⟨_, rfl, rfl, rfl, rfl⟩

/-- A concrete configuration with an Accept header and a Host override. -/
def hostWitnessModel : modelV0 :=
  { emptyModel "https://example.com" with
    requestHeaders := [("Accept", "application/json"),
      ("Host", "alt-test-host")] }

/-- Witness for C7 at a concrete configuration: the Host header value
becomes the connection host while the URL is untouched. -/
theorem host_header_overrides_connection_host_witness :
    (buildRequest hostWitnessModel).host = some "alt-test-host" ∧
    (buildRequest hostWitnessModel).url = "https://example.com" :=
  host_header_overrides_connection_host hostWitnessModel
    [("Accept", "application/json")] [] "Host" "alt-test-host" rfl
    (by decide) (by simp)

/-- A server answering 200 with a duplicated X-Double header. -/
def headerWitnessServer : Nat → Attempt :=
  fun _ => ⟨10, .response 200 [("X-Double", ["1", "2"])] []⟩

/-- Witness for C5 at a concrete exchange: duplicate headers
X-Double: 1 and X-Double: 2 are reported as the single entry "1, 2". -/
theorem response_headers_joined_witness :
    ∃ st ws, readPipeline (emptyModel "http://w5.test") headerWitnessServer =
        .success st ws ∧ ("X-Double", "1, 2") ∈ st.responseHeaders := by
  obtain ⟨st, ws, h1, h2⟩ :=
    response_headers_joined_with_comma_space (emptyModel "http://w5.test")
      headerWitnessServer 200 [("X-Double", ["1", "2"])] [] "X-Double"
      ["1", "2"] rfl (by simp)
  have e : String.intercalate ", " ["1", "2"] = "1, 2" := rfl
  rw [e] at h2
  exact ⟨st, ws, h1, h2⟩

/-- A server answering 200 with the single non-UTF-8 byte 0xFF. -/
def utf8WitnessServer : Nat → Attempt := fun _ => ⟨10, .response 200 [] [255]⟩

/-- Witness for C6 at a concrete exchange: a body of the lone byte 0xFF is
not valid UTF-8, yet the invocation succeeds with the warning attached and
the body and its base64 both returned. -/
theorem invalid_utf8_warns_but_succeeds_witness :
    ∃ st, readPipeline (emptyModel "http://w6.test") utf8WitnessServer =
        .success st [utf8Warning] ∧ st.responseBody = [255] ∧
        st.responseBodyBase64 = base64Encode [255] ∧ st.statusCode = 200 :=
  invalid_utf8_warns_but_succeeds (emptyModel "http://w6.test")
    utf8WitnessServer 200 [] [255] rfl (by decide)

/-- C10: with the `when` attribute set to "destroy", Create performs no
request and writes the placeholder state (status_code 0, empty bodies, empty
base64, empty headers map, id echoing the URL), Read and Update perform no
request either, and Delete is the operation that performs the request
(at least one attempt). -/
theorem when_destroy_only_delete_requests (m : resourceModel)
    (server : Nat → Attempt) (st : ResponseResult)
    (h : whenValue m = "destroy") :
    createOp m server = (.success (placeholderState m.url) [], 0) ∧
    (readOp st).2 = 0 ∧
    (updateOp m st server).2 = 0 ∧
    1 ≤ deleteOp m server := by
  have hne : ¬whenValue m = "apply" := by rw [h]; decide
  refine ⟨?_, rfl, ?_, ?_⟩
  · unfold createOp
    rw [if_neg hne]
  · unfold updateOp
    rw [if_neg hne]
  · unfold deleteOp
    rw [if_pos h]
    exact runAttempts_count_ge _ _ _ 0

/-- A resource configuration with the `when` attribute set to "destroy". -/
def destroyModel : resourceModel :=
  { url := "http://w10.test", method := none, requestHeaders := [],
    requestBody := none, requestTimeout := none, retry := none,
    caCertificate := none, clientCert := none, clientKey := none,
    insecure := none, whenAttr := some "destroy" }

/-- A trivial server answering 200 immediately. -/
def destroyServer : Nat → Attempt := fun _ => ⟨10, .response 200 [] []⟩

/-- Witness for C10 at a concrete configuration in destroy mode. -/
theorem when_destroy_only_delete_requests_witness :
    createOp destroyModel destroyServer =
      (.success (placeholderState "http://w10.test") [], 0) ∧
    (readOp (placeholderState "http://w10.test")).2 = 0 ∧
    (updateOp destroyModel (placeholderState "http://w10.test")
      destroyServer).2 = 0 ∧
    1 ≤ deleteOp destroyModel destroyServer :=
  when_destroy_only_delete_requests destroyModel destroyServer
    (placeholderState "http://w10.test") rfl

/-- C8: a retry block whose `max_delay_ms` is strictly below its
`min_delay_ms` fails schema validation, so the invocation is rejected before
any network request is attempted; any pair with `max_delay_ms` at least
`min_delay_ms` passes this check. -/
theorem max_delay_below_min_delay_rejected (m : modelV0) (r : retryModel)
    (server : Nat → Attempt) (mn mx : Int)
    (hr : m.retry = some r) (hmn : r.minDelay = some mn)
    (hmx : r.maxDelay = some mx) (hlt : mx < mn) :
    invoke m server =
        .fatal "Invalid Attribute Value" "schema validation failed" ∧
    invokeRequestCount m server = 0 ∧
    (∀ r2 : retryModel, ∀ mn2 mx2 : Int, r2.minDelay = some mn2 →
      r2.maxDelay = some mx2 → mn2 ≤ mx2 →
      maxDelayAtLeastMinDelay r2 = true) := by
  have hbad : maxDelayAtLeastMinDelay r = false := by
    unfold maxDelayAtLeastMinDelay
    rw [hmx, hmn]
    simpa using hlt
  have hv : validConfig m = false := by
    simp only [validConfig, validRetryBlock, hr, hbad]
    simp
  refine ⟨?_, ?_, ?_⟩
  · unfold invoke
    rw [hv]
    simp
  · unfold invokeRequestCount
    rw [hv]
    simp
  · intro r2 mn2 mx2 h2n h2x hle
    unfold maxDelayAtLeastMinDelay
    rw [h2x, h2n]
    simpa using hle

/-- A retry block with max_delay 200 strictly below min_delay 300. -/
def badDelayRetry : retryModel :=
  { attempts := some 1, minDelay := some 300, maxDelay := some 200 }

/-- A retry block with max_delay equal to min_delay. -/
def goodDelayRetry : retryModel :=
  { attempts := some 1, minDelay := some 300, maxDelay := some 300 }

/-- A configuration whose retry block has max_delay 200 below min_delay 300. -/
def badDelayModel : modelV0 :=
  { emptyModel "http://w8.test" with retry := some badDelayRetry }

/-- Witness for C8 at a concrete configuration: min_delay 300 with
max_delay 200 is rejected with no request attempted, and 300/300 passes. -/
theorem max_delay_below_min_delay_rejected_witness :
    invoke badDelayModel destroyServer =
        .fatal "Invalid Attribute Value" "schema validation failed" ∧
    invokeRequestCount badDelayModel destroyServer = 0 ∧
    maxDelayAtLeastMinDelay goodDelayRetry = true := by
  obtain ⟨h1, h2, h3⟩ :=
    max_delay_below_min_delay_rejected badDelayModel badDelayRetry
      destroyServer 300 200 rfl rfl rfl (by decide)
  exact ⟨h1, h2, h3 goodDelayRetry 300 300 rfl rfl (by decide)⟩

/-- A server answering 500 on every attempt. -/
def alwaysServerError : Nat → Attempt := fun _ => ⟨10, .response 500 [] []⟩

/-- Counterexample to C1 as stated: an exchange that completes with a 500
response does not yield a ResponseResult; with no retry block the retry
client gives up after one attempt and `Read` raises a fatal error, so the
status is not reported. -/
theorem completed_500_response_raises_fatal :
    isFatal (readPipeline (emptyModel "http://c1.test") alwaysServerError) =
        true ∧
    statusOf (readPipeline (emptyModel "http://c1.test") alwaysServerError) =
        none := by
  constructor <;> rfl

/-- C1 (amended): for every exchange that completes with a response whose
status is not in the retryable set of the default retry policy (0, 429, or
500 to 599 other than 501), the pipeline reports that status verbatim with
no fatal error, and exactly one attempt is made (no retry on any 2xx, nor
on a 4xx other than 429, in particular). -/
theorem nonretryable_status_reported_verbatim (m : modelV0)
    (server : Nat → Attempt) (s : Int) (hs : List (String × List String))
    (b : List Nat)
    (h0 : effectiveOutcome (timeoutMs m) (server 0) = .response s hs b)
    (hnr : statusRetryable s = false) :
    statusOf (readPipeline m server) = some s ∧
    (doRequest m server).2 = 1 := by
  have hsr : shouldRetry (effectiveOutcome (timeoutMs m) (server 0)) =
      false := by
    rw [h0]
    simpa [shouldRetry] using hnr
  have hdo : doRequest m server = (.response s hs b, 1) := by
    unfold doRequest
    rw [runAttempts_no_retry _ _ _ _ hsr, h0]
  constructor
  · simp only [readPipeline, doResult, hdo, hnr, Bool.false_eq_true,
      if_false, mapResponse, statusOf]
  · rw [hdo]

/-- A server answering 404 on every attempt. -/
def notFoundServer : Nat → Attempt := fun _ => ⟨10, .response 404 [] []⟩

/-- Witness for the amended C1 at a concrete exchange: a 404 response is
reported as status 404 with a single attempt and no fatal error. -/
theorem nonretryable_status_reported_verbatim_witness :
    statusOf (readPipeline (emptyModel "http://w1.test") notFoundServer) =
        some 404 ∧
    (doRequest (emptyModel "http://w1.test") notFoundServer).2 = 1 :=
  nonretryable_status_reported_verbatim (emptyModel "http://w1.test")
    notFoundServer 404 [] [] rfl rfl

/-- A retry block of one retry with delays between one and two seconds. -/
def flakyRetry : retryModel :=
  { attempts := some 1, minDelay := some 1000, maxDelay := some 2000 }

/-- A configuration with a 100ms timeout and the flaky retry block. -/
def timeoutRetryModel : modelV0 :=
  { emptyModel "http://c3.test" with
    requestTimeout := some 100
    retry := some flakyRetry }

/-- A server that answers 500 in 50ms once, then 200 in 50ms. -/
def flakyServer : Nat → Attempt := fun i =>
  if i = 0 then ⟨50, .response 500 [] []⟩ else ⟨50, .response 200 [] []⟩

/-- Counterexample to C3 as stated: with a 100ms timeout and one retry, a
500-then-200 server makes the whole call take 1100ms of wall clock (two 50ms
attempts plus the 1000ms backoff sleep), far beyond the configured timeout,
yet the invocation succeeds with status 200 and no timeout error: the
timeout does not bound the entire request including retries. -/
theorem timeout_not_bounding_whole_request :
    timeoutMs timeoutRetryModel = 100 ∧
    totalElapsed timeoutRetryModel flakyServer = 1100 ∧
    statusOf (readPipeline timeoutRetryModel flakyServer) = some 200 := by
  refine ⟨rfl, ?_, rfl⟩
  decide

/-- C3 (amended): a configured timeout bounds each individual attempt (the
per-attempt elapsed time never exceeds it), not the retried sequence as a
whole; and when the call fails with a timeout in the error chain, the fatal
detail names the configured duration, distinct from the generic request
error. -/
theorem timeout_bounds_each_attempt_and_names_duration (m : modelV0)
    (server : Nat → Attempt) (msg : String) (i : Nat)
    (hT : 0 < timeoutMs m)
    (htmo : doResult m server = .err true msg) :
    attemptElapsed (timeoutMs m) (server i) ≤ timeoutMs m ∧
    readPipeline m server = .fatal "Error making request"
      ("request exceeded the specified timeout: " ++
        durationString (timeoutMs m).toNat ++ ", err: " ++ msg) := by
  constructor
  · unfold attemptElapsed
    split
    · exact le_refl _
    · rename_i hcond
      rw [not_and_or] at hcond
      rcases hcond with hc | hc
      · exact absurd hT hc
      · omega
  · simp [readPipeline, htmo, hT]

/-- A server that takes 200ms to answer. -/
def slowServer : Nat → Attempt := fun _ => ⟨200, .response 200 [] []⟩

/-- A configuration with a 100ms timeout and no retry block. -/
def timeout100Model : modelV0 :=
  { emptyModel "http://w3.test" with requestTimeout := some 100 }

/-- The error message the retry client produces for the 100ms-timeout
witness exchange. -/
def timeoutWitnessMsg : String :=
  "GET http://w3.test giving up after 1 attempt(s): " ++ clientTimeoutMsg

/-- Witness for the amended C3 at a concrete exchange: a 200ms server with a
100ms timeout fails with the detail naming 100ms. -/
theorem timeout_bounds_each_attempt_witness :
    attemptElapsed (timeoutMs timeout100Model) (slowServer 0) ≤
        timeoutMs timeout100Model ∧
    readPipeline timeout100Model slowServer = .fatal "Error making request"
      ("request exceeded the specified timeout: " ++
        durationString (timeoutMs timeout100Model).toNat ++ ", err: " ++
        timeoutWitnessMsg) :=
  timeout_bounds_each_attempt_and_names_duration timeout100Model slowServer
    timeoutWitnessMsg 0 (by decide) rfl

/-- C9 (amended): the retry policy.  Zero configured attempts means exactly
one try (no retry); the number of tries never exceeds attempts plus one; a
first outcome the policy deems transient, with at least one attempt
configured, leads to a second try, while a non-retryable outcome (such as a
certificate-verification, redirect-loop, unsupported-scheme or
invalid-header error) ends the call after a single attempt; a backoff delay
not dictated by a Retry-After header lies in the configured min/max window
(when the window is well formed), while a 429/503 Retry-After override is
used as the server specified it; and when the call ends in a client
failure, the fatal detail of the invocation ends with the last underlying
error message. -/
theorem retry_policy_bounds_and_preserves_cause (m : modelV0)
    (server : Nat → Attempt) :
    (valueInt64 (effectiveRetry m).attempts = 0 →
      (doRequest m server).2 = 1) ∧
    ((doRequest m server).2 ≤ (retryMax m).toNat + 1) ∧
    (shouldRetry (effectiveOutcome (timeoutMs m) (server 0)) = true →
      1 ≤ (retryMax m).toNat → 2 ≤ (doRequest m server).2) ∧
    (shouldRetry (effectiveOutcome (timeoutMs m) (server 0)) = false →
      (doRequest m server).2 = 1) ∧
    (∀ (i : Nat) (o : AttemptOutcome), retryAfterOverride o = none →
      0 ≤ retryWaitMin m → retryWaitMin m ≤ retryWaitMax m →
      retryWaitMin m ≤ backoffDelay (retryWaitMin m) (retryWaitMax m) i o ∧
      backoffDelay (retryWaitMin m) (retryWaitMax m) i o ≤ retryWaitMax m) ∧
    (∀ (i : Nat) (o : AttemptOutcome) (d : Int),
      retryAfterOverride o = some d →
      backoffDelay (retryWaitMin m) (retryWaitMax m) i o = d) ∧
    (∀ (tmo : Bool) (msg : String) (n : Nat),
      doRequest m server = (.failure tmo msg, n) →
      ∃ d p, readPipeline m server = .fatal "Error making request" d ∧
        d = p ++ msg) := by
  refine ⟨?_, ?_, ?_, ?_, ?_, ?_, ?_⟩
  · intro h
    have hz : retryMax m = 0 := h
    unfold doRequest
    rw [hz]
    rfl
  · have := runAttempts_count_le (timeoutMs m) server (retryMax m).toNat 0
    unfold doRequest
    omega
  · intro hr hf
    obtain ⟨f, hf'⟩ : ∃ f, (retryMax m).toNat = f + 1 :=
      ⟨(retryMax m).toNat - 1, by omega⟩
    unfold doRequest
    rw [hf']
    simp only [runAttempts]
    rw [if_pos hr]
    exact runAttempts_count_ge (timeoutMs m) server f 1
  · intro h
    unfold doRequest
    rw [runAttempts_no_retry _ _ _ _ h]
  · intro i o hov hmin hminmax
    simp only [backoffDelay, hov]
    split
    · exact ⟨hminmax, le_refl _⟩
    · rename_i hle
      constructor
      · calc retryWaitMin m = retryWaitMin m * 1 := (mul_one _).symm
          _ ≤ retryWaitMin m * 2 ^ i := by
              apply mul_le_mul_of_nonneg_left _ hmin
              exact one_le_pow₀ (by norm_num)
      · exact not_lt.mp hle
  · intro i o d hov
    simp only [backoffDelay, hov]
  · intro tmo msg n h
    have hres : doResult m server =
        .err tmo (givingUpMsg m n ++ ": " ++ msg) := by
      simp only [doResult, h]
    cases tmo with
    | false =>
        refine ⟨"Error making request: " ++ (givingUpMsg m n ++ ": " ++ msg),
          "Error making request: " ++ (givingUpMsg m n ++ ": "), ?_, ?_⟩
        · simp only [readPipeline, hres, Bool.false_eq_true, if_false]
        · simp only [String.append_assoc]
    | true =>
        by_cases hT : timeoutMs m > 0
        · refine ⟨"request exceeded the specified timeout: " ++
            durationString (timeoutMs m).toNat ++ ", err: " ++
            (givingUpMsg m n ++ ": " ++ msg),
            "request exceeded the specified timeout: " ++
            durationString (timeoutMs m).toNat ++ ", err: " ++
            (givingUpMsg m n ++ ": "), ?_, ?_⟩
          · simp [readPipeline, hres, hT]
          · simp only [String.append_assoc]
        · refine ⟨"timeout error: " ++ (givingUpMsg m n ++ ": " ++ msg),
            "timeout error: " ++ (givingUpMsg m n ++ ": "), ?_, ?_⟩
          · simp [readPipeline, hres, hT]
          · simp only [String.append_assoc]

/-- A server failing twice with connection errors, then answering 200. -/
def failTwiceServer : Nat → Attempt := fun i =>
  if i < 2 then
    ⟨10, .failure false "connection refused"⟩
  else ⟨10, .response 200 [] []⟩

/-- A retry block of one retry with a 200..300ms delay window. -/
def oneRetryBlock : retryModel :=
  { attempts := some 1, minDelay := some 200, maxDelay := some 300 }

/-- A configuration with one configured retry and a 200..300ms window. -/
def oneRetryModel : modelV0 :=
  { emptyModel "http://w9.test" with retry := some oneRetryBlock }

/-- A server failing with a certificate-verification error on every attempt
(the rendered `url.Error` of an untrusted-certificate exchange). -/
def certErrorServer : Nat → Attempt := fun _ =>
  ⟨10, .failure false
    "Get \"https://c9.test\": x509: certificate signed by unknown authority"⟩

/-- A 503 response carrying a Retry-After header of 30 seconds. -/
def retryAfter503 : AttemptOutcome :=
  .response 503 [("Retry-After", ["30"])] []

/-- Counterexample to C9 as stated: with one configured retry, a
certificate-verification failure (a client error) is not retried at all -
exactly one attempt is made - and the backoff delay after a 503 response
carrying Retry-After: 30 is 30000ms, escaping the configured 200..300ms
min/max window. -/
theorem cert_error_not_retried_and_retry_after_escapes_window :
    (doRequest oneRetryModel certErrorServer).2 = 1 ∧
    backoffDelay (retryWaitMin oneRetryModel) (retryWaitMax oneRetryModel) 0
        retryAfter503 = 30000 ∧
    retryWaitMax oneRetryModel = 300 := by
  refine ⟨?_, rfl, rfl⟩
  decide

/-- Witness for the amended C9 at concrete inputs: with one retry against a
server that keeps failing with connection errors, two attempts are made
(within the budget); the certificate-error server gets exactly one attempt;
the backoff delay after a plain 500 is within the 200..300ms window while a
503 with Retry-After: 30 dictates 30000ms; and the fatal detail ends with
the last cause "connection refused". -/
theorem retry_policy_bounds_and_preserves_cause_witness :
    ((doRequest (emptyModel "http://w9.test") failTwiceServer).2 = 1 ∧
      (doRequest oneRetryModel failTwiceServer).2 ≤ 2) ∧
    (2 ≤ (doRequest oneRetryModel failTwiceServer).2) ∧
    ((doRequest oneRetryModel certErrorServer).2 = 1) ∧
    (retryWaitMin oneRetryModel ≤
        backoffDelay (retryWaitMin oneRetryModel) (retryWaitMax oneRetryModel)
          0 (.response 500 [] []) ∧
      backoffDelay (retryWaitMin oneRetryModel) (retryWaitMax oneRetryModel)
          0 (.response 500 [] []) ≤ retryWaitMax oneRetryModel) ∧
    (backoffDelay (retryWaitMin oneRetryModel) (retryWaitMax oneRetryModel)
        0 retryAfter503 = 30000) ∧
    (∃ d p, readPipeline oneRetryModel failTwiceServer =
        .fatal "Error making request" d ∧ d = p ++ "connection refused") := by
  obtain ⟨e1, _, _, _, _, _, _⟩ :=
    retry_policy_bounds_and_preserves_cause (emptyModel "http://w9.test")
      failTwiceServer
  obtain ⟨_, f2, f3, _, f5, f6, f7⟩ :=
    retry_policy_bounds_and_preserves_cause oneRetryModel failTwiceServer
  obtain ⟨_, _, _, g4, _, _, _⟩ :=
    retry_policy_bounds_and_preserves_cause oneRetryModel certErrorServer
  exact ⟨⟨e1 rfl, f2⟩, f3 rfl (by decide), g4 (by decide),
    f5 0 (.response 500 [] []) rfl (by decide) (by decide),
    f6 0 retryAfter503 30000 rfl, f7 false "connection refused" 2 rfl⟩

theorem b64v_b64c_all : ∀ k, k < 64 → b64v (b64c k) = some k := by decide

theorem b64c_ne_pad_all : ∀ k, k < 64 → b64c k ≠ '=' := by decide

theorem decode_group (v0 v1 v2 v3 : Nat) (rest : List Char) (ds : List Nat)
    (h0 : v0 < 64) (h1 : v1 < 64) (h2 : v2 < 64) (h3 : v3 < 64)
    (hrest : base64DecodeChars rest = some ds) :
    base64DecodeChars (b64c v0 :: b64c v1 :: b64c v2 :: b64c v3 :: rest) =
      some ((v0 * 4 + v1 / 16) :: (v1 % 16 * 16 + v2 / 4) ::
        (v2 % 4 * 64 + v3) :: ds) := by
  simp only [base64DecodeChars, b64v_b64c_all v0 h0, b64v_b64c_all v1 h1,
    b64v_b64c_all v2 h2, b64v_b64c_all v3 h3, hrest,
    if_neg (b64c_ne_pad_all v2 h2), if_neg (b64c_ne_pad_all v3 h3)]

theorem decode_group_two (v0 v1 v2 : Nat)
    (h0 : v0 < 64) (h1 : v1 < 64) (h2 : v2 < 64) :
    base64DecodeChars [b64c v0, b64c v1, b64c v2, '='] =
      some [v0 * 4 + v1 / 16, v1 % 16 * 16 + v2 / 4] := by
  simp only [base64DecodeChars, b64v_b64c_all v0 h0, b64v_b64c_all v1 h1,
    b64v_b64c_all v2 h2, if_neg (b64c_ne_pad_all v2 h2)]
  simp

theorem decode_group_one (v0 v1 : Nat) (h0 : v0 < 64) (h1 : v1 < 64) :
    base64DecodeChars [b64c v0, b64c v1, '=', '='] =
      some [v0 * 4 + v1 / 16] := by
  simp only [base64DecodeChars, b64v_b64c_all v0 h0, b64v_b64c_all v1 h1]
  simp

theorem base64_roundtrip_chars :
    ∀ bs : List Nat, (∀ x ∈ bs, x < 256) →
      base64DecodeChars (base64EncodeChars bs) = some bs := by
  intro bs
  induction bs using base64EncodeChars.induct with
  | case1 b0 b1 b2 rest ih =>
      intro h
      have hb0 : b0 < 256 := h b0 (by simp)
      have hb1 : b1 < 256 := h b1 (by simp)
      have hb2 : b2 < 256 := h b2 (by simp)
      have hrest : base64DecodeChars (base64EncodeChars rest) = some rest :=
        ih (fun x hx => h x (by simp [hx]))
      simp only [base64EncodeChars]
      rw [decode_group _ _ _ _ _ _ (by omega) (by omega) (by omega) (by omega)
        hrest]
      congr 1
      have e0 : (b0 * 65536 + b1 * 256 + b2) / 262144 * 4 +
          (b0 * 65536 + b1 * 256 + b2) / 4096 % 64 / 16 = b0 := by omega
      have e1 : (b0 * 65536 + b1 * 256 + b2) / 4096 % 64 % 16 * 16 +
          (b0 * 65536 + b1 * 256 + b2) / 64 % 64 / 4 = b1 := by omega
      have e2 : (b0 * 65536 + b1 * 256 + b2) / 64 % 64 % 4 * 64 +
          (b0 * 65536 + b1 * 256 + b2) % 64 = b2 := by omega
      rw [e0, e1, e2]
  | case2 b0 b1 =>
      intro h
      have hb0 : b0 < 256 := h b0 (by simp)
      have hb1 : b1 < 256 := h b1 (by simp)
      simp only [base64EncodeChars]
      rw [decode_group_two _ _ _ (by omega) (by omega) (by omega)]
      congr 1
      have e0 : b0 / 4 * 4 + (b0 % 4 * 16 + b1 / 16) / 16 = b0 := by omega
      have e1 : (b0 % 4 * 16 + b1 / 16) % 16 * 16 + b1 % 16 * 4 / 4 = b1 := by
        omega
      rw [e0, e1]
  | case3 b0 =>
      intro h
      have hb0 : b0 < 256 := h b0 (by simp)
      simp only [base64EncodeChars]
      rw [decode_group_one _ _ (by omega) (by omega)]
      congr 1
      have e0 : b0 / 4 * 4 + b0 % 4 * 16 / 16 = b0 := by omega
      rw [e0]
  | case4 =>
      intro _
      rfl

/-- C4: the base64 output of the mapper decodes (standard RFC 4648 base64)
back to exactly the raw response bytes, and the textual body fields hold
those same bytes, computed unconditionally for valid and invalid UTF-8
alike. -/
theorem response_body_base64_roundtrip (m : modelV0)
    (server : Nat → Attempt) (s : Int)
    (hs : List (String × List String)) (b : List Nat)
    (hok : doResult m server = .ok s hs b)
    (hb : ∀ x ∈ b, x < 256) :
    ∃ st ws, readPipeline m server = .success st ws ∧
      base64Decode st.responseBodyBase64 = some b ∧
      st.responseBody = b ∧ st.body = b := by
  simp only [readPipeline, hok, mapResponse]
  refine ⟨_, _, rfl, ?_, rfl, rfl⟩
  show base64Decode (base64Encode b) = some b
  exact base64_roundtrip_chars b hb

/-- A server answering with a three-byte binary body that is not UTF-8. -/
def binaryServer : Nat → Attempt :=
  fun _ => ⟨10, .response 200 [] [71, 255, 0]⟩

/-- Witness for C4 at a concrete exchange: the bytes 71, 255, 0 (invalid as
UTF-8) are returned verbatim and their base64 decodes back to them. -/
theorem response_body_base64_roundtrip_witness :
    ∃ st ws, readPipeline (emptyModel "http://w4.test") binaryServer =
        .success st ws ∧
      base64Decode st.responseBodyBase64 = some [71, 255, 0] ∧
      st.responseBody = [71, 255, 0] ∧ st.body = [71, 255, 0] :=
  response_body_base64_roundtrip (emptyModel "http://w4.test") binaryServer
    200 [] [71, 255, 0] rfl (by decide)

end HttpSpec



